import Mathlib

/-!
Verification of the column-shaping and split-table codec core of the
Data-Analysis-Dashboard repository.

The embedding models:
* `api_utils.get_shaped_dataframe` (the Column Shaper);
* the split-form encoder `DataFrame.to_dict("split")` used by the API
  handlers (e.g. `api_descriptive_handlers.handle_numerical_summary`);
* the decoder core of `display_df_from_api_split_response` in
  `dashboard.py` / `new_dashboard.py`, which rebuilds a pandas DataFrame
  from the `{index, columns, data}` triple via `pd.Index`,
  `pd.MultiIndex.from_tuples` and the `pd.DataFrame(data, index, columns)`
  constructor.

Tables are modelled column-major (a pandas DataFrame is a sequence of
named columns plus a row index); the wire form is row-major, exactly as
`to_dict("split")` produces it.  Machine floats are not needed by any
claim, so cell values are modelled as integers, strings, booleans, null
(None/NaN) and tuples (which pandas permits as labels of an object
Index).
-/

namespace Dashboard

/-- A cell or index-label value. `null` stands for Python `None` / NaN
(the padding value pandas inserts for missing entries of ragged rows);
`tup` models a Python tuple used as a single-level index label. -/
inductive Value where
  | int (n : Int)
  | str (s : String)
  | boolean (b : Bool)
  | null
  | tup (vs : List Value)

/-- `true` exactly on tuple values. -/
def Value.isTup : Value → Bool
  | .tup _ => true
  | _ => false

mutual

/-- Decidable equality for `Value` (hand-rolled because of the nested
`List Value` in `tup`). -/
def Value.decEq : (a b : Value) → Decidable (a = b)
  | .int a, .int b =>
    match Int.decEq a b with
    | isTrue h => isTrue (by rw [h])
    | isFalse h => isFalse (by intro hc; cases hc; exact h rfl)
  | .str a, .str b =>
    match String.decEq a b with
    | isTrue h => isTrue (by rw [h])
    | isFalse h => isFalse (by intro hc; cases hc; exact h rfl)
  | .boolean a, .boolean b =>
    match Bool.decEq a b with
    | isTrue h => isTrue (by rw [h])
    | isFalse h => isFalse (by intro hc; cases hc; exact h rfl)
  | .null, .null => isTrue rfl
  | .tup a, .tup b =>
    match Value.decEqList a b with
    | isTrue h => isTrue (by rw [h])
    | isFalse h => isFalse (by intro hc; cases hc; exact h rfl)
  | .int _, .str _ => isFalse (by intro hc; cases hc)
  | .int _, .boolean _ => isFalse (by intro hc; cases hc)
  | .int _, .null => isFalse (by intro hc; cases hc)
  | .int _, .tup _ => isFalse (by intro hc; cases hc)
  | .str _, .int _ => isFalse (by intro hc; cases hc)
  | .str _, .boolean _ => isFalse (by intro hc; cases hc)
  | .str _, .null => isFalse (by intro hc; cases hc)
  | .str _, .tup _ => isFalse (by intro hc; cases hc)
  | .boolean _, .int _ => isFalse (by intro hc; cases hc)
  | .boolean _, .str _ => isFalse (by intro hc; cases hc)
  | .boolean _, .null => isFalse (by intro hc; cases hc)
  | .boolean _, .tup _ => isFalse (by intro hc; cases hc)
  | .null, .int _ => isFalse (by intro hc; cases hc)
  | .null, .str _ => isFalse (by intro hc; cases hc)
  | .null, .boolean _ => isFalse (by intro hc; cases hc)
  | .null, .tup _ => isFalse (by intro hc; cases hc)
  | .tup _, .int _ => isFalse (by intro hc; cases hc)
  | .tup _, .str _ => isFalse (by intro hc; cases hc)
  | .tup _, .boolean _ => isFalse (by intro hc; cases hc)
  | .tup _, .null => isFalse (by intro hc; cases hc)

/-- Decidable equality for lists of `Value`. -/
def Value.decEqList : (a b : List Value) → Decidable (a = b)
  | [], [] => isTrue rfl
  | a :: as, b :: bs =>
    match Value.decEq a b, Value.decEqList as bs with
    | isTrue h1, isTrue h2 => isTrue (by rw [h1, h2])
    | isFalse h1, _ => isFalse (by intro hc; cases hc; exact h1 rfl)
    | _, isFalse h2 => isFalse (by intro hc; cases hc; exact h2 rfl)
  | [], _ :: _ => isFalse (by intro hc; cases hc)
  | _ :: _, [] => isFalse (by intro hc; cases hc)

end

instance : DecidableEq Value := Value.decEq

instance {ε α : Type} [DecidableEq ε] [DecidableEq α] :
    DecidableEq (Except ε α) := fun a b =>
  match a, b with
  | .ok x, .ok y =>
    match decEq x y with
    | isTrue h => isTrue (by rw [h])
    | isFalse h => isFalse (by intro hc; cases hc; exact h rfl)
  | .error x, .error y =>
    match decEq x y with
    | isTrue h => isTrue (by rw [h])
    | isFalse h => isFalse (by intro hc; cases hc; exact h rfl)
  | .ok _, .error _ => isFalse (by intro hc; cases hc)
  | .error _, .ok _ => isFalse (by intro hc; cases hc)

/-- A row index: either a single-level `pd.Index` (with an optional name)
or a multi-level `pd.MultiIndex` (one optional name per level; each label
is the list of its per-level components). -/
inductive PIndex where
  | single (name : Option String) (labels : List Value)
  | multi (names : List (Option String)) (labels : List (List Value))
deriving DecidableEq

/-- Number of rows an index spans. -/
def PIndex.length : PIndex → Nat
  | .single _ ls => ls.length
  | .multi _ ls => ls.length

/-- One named column of a table. -/
structure Col where
  name : String
  values : List Value
deriving DecidableEq

/-- A pandas DataFrame: an ordered sequence of named columns (names may
repeat, as pandas allows duplicate column labels) plus a row index. -/
structure DataFrame where
  cols : List Col
  index : PIndex
deriving DecidableEq

/-- The list of column names, in table order (`df.columns`). -/
def DataFrame.columns (df : DataFrame) : List String :=
  df.cols.map Col.name

/-- pandas label-based column selection `df[labels]`: for each requested
label in request order, every column bearing that label is taken (with a
non-unique column axis one label can select several columns). The row
index is carried over unchanged. -/
def selectColumns (df : DataFrame) (labels : List String) : DataFrame :=
  { cols := labels.flatMap (fun l => df.cols.filter (fun c => c.name == l)),
    index := df.index }

/-- `df[labels]` raises `KeyError` when some requested label is absent
from the column axis; otherwise it returns the selection. -/
def selectColumnsE (df : DataFrame) (labels : List String) :
    Except String DataFrame :=
  if labels.all (fun l => df.columns.contains l) then
    .ok (selectColumns df labels)
  else
    .error "KeyError"

/-- pandas `df.drop(columns=labels)` (with the default `inplace=False`):
every column whose name occurs in `labels` is removed. -/
def dropColumns (df : DataFrame) (labels : List String) : DataFrame :=
  { cols := df.cols.filter (fun c => !(labels.contains c.name)),
    index := df.index }

/-- `df.drop(columns=labels)` raises `KeyError` when some label is absent
(default `errors="raise"`); otherwise it returns the dropped frame. -/
def dropColumnsE (df : DataFrame) (labels : List String) :
    Except String DataFrame :=
  if labels.all (fun l => df.columns.contains l) then
    .ok (dropColumns df labels)
  else
    .error "KeyError"

/-- `pd.DataFrame(columns=names)`: a frame with the given column labels,
no rows and an empty unnamed (Range)Index. -/
def emptyFrame (names : List String) : DataFrame :=
  { cols := names.map (fun n => Col.mk n []),
    index := .single none [] }

/-- Shallow embedding of `api_utils.get_shaped_dataframe`.  Mirrors the
Python line by line: copy the base frame; if `include_columns` was
provided, keep only those of its names that exist (in the order of the
include list); when none of a non-empty include list exists, return
`pd.DataFrame(columns=include_columns)`; otherwise, if `exclude_columns`
was provided, drop those of its names that exist.  `.error` marks a
raised exception of one of the library calls. -/
def get_shaped_dataframe (base : DataFrame)
    (includeCols excludeCols : Option (List String)) :
    Except String DataFrame :=
  let current := base
  match includeCols with
  | some inc =>
    let valid := inc.filter (fun c => current.columns.contains c)
    if valid.isEmpty then
      if !inc.isEmpty then
        .ok (emptyFrame inc)
      else
        .ok current
    else
      selectColumnsE current valid
  | none =>
    match excludeCols with
    | some exc =>
      let validEx := exc.filter (fun c => current.columns.contains c)
      if !validEx.isEmpty then
        dropColumnsE current validEx
      else
        .ok current
    | none => .ok current

/-! ## Split-table codec -/

/-- One entry of the `index` field of a split-form response: a JSON
scalar or a JSON array (the transport image of an index tuple). -/
inductive IndexEntry where
  | scalar (v : Value)
  | arr (vs : List Value)
deriving DecidableEq

/-- `tuple(item) if isinstance(item, list) else item`: the processed form
of one index entry, as a single-level index label. -/
def IndexEntry.toLabel : IndexEntry → Value
  | .scalar v => v
  | .arr vs => .tup vs

/-- The components of one index entry viewed as an index tuple (only used
on the multi-index path, where every entry is an array). -/
def IndexEntry.toTuple : IndexEntry → List Value
  | .scalar v => [v]
  | .arr vs => vs

/-- The wire form of a table: the parsed `{index, columns, data}` triple
of an `orient="split"` response. -/
structure SplitTable where
  index : List IndexEntry
  columns : List String
  data : List (List Value)
deriving DecidableEq

/-- The failures of decoding.  `malformedSplitTable` is the `ValueError`
pandas raises from `pd.DataFrame(data, index, columns)` when the shapes
disagree; `badIndexLevelNames` is the `ValueError` of
`MultiIndex.from_tuples(..., names=...)` when the names list does not
match the number of levels; `badIndexTuples` is the `TypeError` /
`ValueError` of `MultiIndex.from_tuples` on entries that are not
uniform tuples.  In the dashboards every one of these is caught by the
`except` clauses and surfaced as an error banner instead of a table. -/
inductive DecodeError where
  | malformedSplitTable
  | badIndexLevelNames
  | badIndexTuples
deriving DecidableEq

/-- `pd.MultiIndex.from_tuples(tuples, names=names)`: requires a
non-empty list of tuples of one common arity `k`; when `names` is not
`None` its length must equal `k`, otherwise `set_names` raises
`ValueError`; when `names` is `None` all levels stay unnamed. -/
def multiIndexFromTuples (tuples : List (List Value))
    (names : Option (List (Option String))) : Except DecodeError PIndex :=
  match tuples with
  | [] => .error .badIndexTuples
  | t :: ts =>
    if ts.all (fun u => u.length == t.length) then
      match names with
      | none => .ok (.multi (List.replicate t.length none) (t :: ts))
      | some l =>
        if l.length == t.length then
          .ok (.multi l (t :: ts))
        else
          .error .badIndexLevelNames
    else .error .badIndexTuples

/-- The index-reconstruction step of `display_df_from_api_split_response`
(dashboard.py lines 101-113 / new_dashboard.py lines 100-110).
`dataEmpty` is `not data_from_json`.  A non-empty index whose first
processed entry is a tuple goes to `MultiIndex.from_tuples` (which fails
unless every entry is a tuple of the same arity); otherwise a single
`pd.Index` is built, named only when exactly one level name was supplied;
an empty index with empty data becomes `pd.Index([])`; an empty index
with data present leaves the index to pandas (`None`). -/
def reconstructIndex (idx : List IndexEntry) (dataEmpty : Bool)
    (indexLevelNames : Option (List (Option String))) :
    Except DecodeError (Option PIndex) :=
  match idx with
  | [] =>
    if dataEmpty then .ok (some (.single none [])) else .ok none
  | first :: rest =>
    match first with
    | .arr _ =>
      if (first :: rest).all (fun e => match e with | .arr _ => true | .scalar _ => false) then
        (multiIndexFromTuples ((first :: rest).map IndexEntry.toTuple)
          indexLevelNames).map some
      else .error .badIndexTuples
    | .scalar _ =>
      let nm : Option String :=
        match indexLevelNames with
        | some [n] => n
        | _ => none
      .ok (some (.single nm ((first :: rest).map IndexEntry.toLabel)))

/-- The width pandas infers for a nested-list `data` argument: the length
of the longest row (`lib.to_object_array` allocates `(n, max_len)`). -/
def maxWidth (rows : List (List Value)) : Nat :=
  rows.foldr (fun r acc => max r.length acc) 0

/-- `pd.DataFrame(data=rows, index=ridx, columns=colNames)` for row-major
nested-list data: rows shorter than the widest row are padded with
null/NaN; with rows present the number of column labels must equal the
inferred width and a supplied index must have exactly one label per row,
else `ValueError`; with no rows and no (or empty) index an empty frame
with the declared columns results; `ridx = none` yields the default
`RangeIndex`. -/
def buildDataFrame (rows : List (List Value)) (ridx : Option PIndex)
    (colNames : List String) : Except DecodeError DataFrame :=
  if rows.isEmpty then
    match ridx with
    | none =>
      .ok { cols := colNames.map (fun n => Col.mk n []), index := .single none [] }
    | some ix =>
      if ix.length == 0 then
        .ok { cols := colNames.map (fun n => Col.mk n []), index := ix }
      else .error .malformedSplitTable
  else
    if colNames.length == maxWidth rows then
      match ridx with
      | none =>
        .ok { cols := colNames.enum.map
                (fun p => Col.mk p.2 (rows.map (fun r => r.getD p.1 .null))),
              index := .single none
                ((List.range rows.length).map (fun i => .int (Int.ofNat i))) }
      | some ix =>
        if ix.length == rows.length then
          .ok { cols := colNames.enum.map
                  (fun p => Col.mk p.2 (rows.map (fun r => r.getD p.1 .null))),
                index := ix }
        else .error .malformedSplitTable
    else .error .malformedSplitTable

/-- Python `str(...)` of a cell value, as used by `astype(str)`. The
exact rendering is irrelevant to the claims (they quantify over the
normalization); this follows Python's conventions. -/
def valueToString : Value → String
  | .int n => toString n
  | .str s => s
  | .boolean b => if b then "True" else "False"
  | .null => "nan"
  | .tup _ => "(tuple)"

/-- The presentation-boundary normalization of
`display_df_from_api_split_response`: every column whose name occurs in
the dashboard's `categorical_cols` list is converted to strings via
`astype(str)` (an assignment `df[col] = ...`, which rewrites every column
bearing that label). -/
def stringifyCols (df : DataFrame) (categoricalCols : List String) : DataFrame :=
  { cols := df.cols.map (fun c =>
      if categoricalCols.contains c.name then
        Col.mk c.name (c.values.map (fun v => .str (valueToString v)))
      else c),
    index := df.index }

/-- The decoding core of `display_df_from_api_split_response`
(dashboard.py lines 65-166 / new_dashboard.py lines 86-126): reconstruct
the row index from the `index` field, build the DataFrame from the
row-major `data` with the declared `columns`, then stringify the columns
named in `categoricalCols`.  `.error` corresponds to the `except`
branches (`st.error` banner, no table shown); `.ok` to the `st.dataframe`
display path. -/
def display_df_from_api_split_response (resp : SplitTable)
    (indexLevelNames : Option (List (Option String)))
    (categoricalCols : List String) : Except DecodeError DataFrame := do
  let ridx ← reconstructIndex resp.index resp.data.isEmpty indexLevelNames
  let df ← buildDataFrame resp.data ridx resp.columns
  pure (stringifyCols df categoricalCols)

/-- The level names of a table's row index, exactly as pandas'
`df.index.names` reports them: a single-level index yields the one-element
list of its (optional) name. -/
def DataFrame.indexNames (df : DataFrame) : List (Option String) :=
  match df.index with
  | .single n _ => [n]
  | .multi ns _ => ns

/-- `df.to_dict("split")`, the encoder used by the API handlers (e.g.
`handle_numerical_summary`): `index` lists the row labels (multi-level
labels become tuples, which the JSON transport renders as arrays),
`columns` the column names in table order, and `data` the row-major cell
matrix. -/
def encode (df : DataFrame) : SplitTable :=
  { index :=
      (match df.index with
       | .single _ ls => ls.map (fun v =>
           match v with
           | .tup vs => IndexEntry.arr vs
           | v => IndexEntry.scalar v)
       | .multi _ ls => ls.map IndexEntry.arr),
    columns := df.columns,
    data := (List.range df.index.length).map
      (fun i => df.cols.map (fun c => c.values.getD i .null)) }

/-- The representation invariant of a pandas DataFrame in this model:
every column has one value per index label; a multi-level index has at
least one level and uniform label arity; single-level labels are never
tuples (pandas turns an all-tuple `Index` into a `MultiIndex`). -/
def wellFormed (df : DataFrame) : Bool :=
  df.cols.all (fun c => c.values.length == df.index.length) &&
  (match df.index with
   | .single _ ls => ls.all (fun v => !v.isTup)
   | .multi ns ls => !ns.isEmpty && ls.all (fun t => t.length == ns.length))

/-! ## Object-identity (heap) model of the shaper

`get_shaped_dataframe` is re-run over an explicit store of DataFrame
objects to make the frame condition provable: every pandas call the
source makes (`.copy()`, `df[list]`, `pd.DataFrame(columns=...)`,
`.drop(columns=..., inplace=False)`) returns a fresh object, so each is
modelled as an allocation; nothing ever writes to an existing cell of
the store. -/

/-- A store of DataFrame objects; references are list positions. -/
abbrev Store := List DataFrame

/-- Dereference (out-of-range reads give a dummy empty frame). -/
def readRef (σ : Store) (r : Nat) : DataFrame :=
  σ.getD r { cols := [], index := .single none [] }

/-- Allocate a fresh object holding `d`, returning the new store and the
reference to the fresh object. -/
def alloc (σ : Store) (d : DataFrame) : Store × Nat :=
  (σ ++ [d], σ.length)

/-- `get_shaped_dataframe` with object identity made explicit: the same
control flow as the pure embedding, with every library call that returns
a new frame modelled as an allocation into the store. Returns the final
store and a reference to the returned frame. -/
def get_shaped_dataframe_heap (σ : Store) (r : Nat)
    (includeCols excludeCols : Option (List String)) : Store × Nat :=
  let s1 := alloc σ (readRef σ r)
  let σ1 := s1.1
  let cur := s1.2
  match includeCols with
  | some inc =>
    let valid := inc.filter (fun c => (readRef σ1 cur).columns.contains c)
    if valid.isEmpty then
      if !inc.isEmpty then
        alloc σ1 (emptyFrame inc)
      else
        (σ1, cur)
    else
      alloc σ1 (selectColumns (readRef σ1 cur) valid)
  | none =>
    match excludeCols with
    | some exc =>
      let validEx := exc.filter (fun c => (readRef σ1 cur).columns.contains c)
      if !validEx.isEmpty then
        alloc σ1 (dropColumns (readRef σ1 cur) validEx)
      else
        (σ1, cur)
    | none => (σ1, cur)

/-! ## Helper lemmas -/

theorem filter_all_contains (l cols : List String) :
    ((l.filter (fun c => cols.contains c)).all (fun c => cols.contains c)) = true := by
  rw [List.all_eq_true]
  intro x hx
  exact (List.mem_filter.mp hx).2

theorem selectColumnsE_filter_ok (df : DataFrame) (l : List String) :
    selectColumnsE df (l.filter (fun c => df.columns.contains c)) =
      .ok (selectColumns df (l.filter (fun c => df.columns.contains c))) := by
  unfold selectColumnsE
  rw [if_pos (filter_all_contains l df.columns)]

theorem dropColumnsE_filter_ok (df : DataFrame) (l : List String) :
    dropColumnsE df (l.filter (fun c => df.columns.contains c)) =
      .ok (dropColumns df (l.filter (fun c => df.columns.contains c))) := by
  unfold dropColumnsE
  rw [if_pos (filter_all_contains l df.columns)]

theorem columns_selectColumns (df : DataFrame) (labels : List String) :
    (selectColumns df labels).columns =
      labels.flatMap (fun l => df.columns.filter (fun x => x == l)) := by
  unfold selectColumns DataFrame.columns
  rw [List.map_flatMap]
  refine List.flatMap_congr (fun l _ => ?_)
  rw [List.filter_map]
  rfl

/-- In a duplicate-free list of names, filtering for one of its members
yields exactly that one-element list. -/
theorem filter_beq_of_nodup {names : List String} {a : String}
    (hnd : names.Nodup) (hmem : a ∈ names) :
    names.filter (fun x => x == a) = [a] := by
  induction names with
  | nil => cases hmem
  | cons b bs ih =>
    obtain ⟨hb, hbs⟩ := List.nodup_cons.mp hnd
    rcases List.mem_cons.mp hmem with h | h
    · subst h
      rw [List.filter_cons_of_pos (by simp)]
      have : bs.filter (fun x => x == a) = [] := by
        rw [List.filter_eq_nil_iff]
        intro x hx hxa
        exact hb (by rwa [← eq_of_beq hxa])
      rw [this]
    · have hba : (b == a) = false := by
        refine beq_eq_false_iff_ne.mpr (fun hc => ?_)
        exact hb (hc ▸ h)
      rw [List.filter_cons_of_neg (by simp [hba])]
      exact ih hbs h

theorem flatMap_singleton_map {α β : Type} (f : α → β) (l : List α) :
    l.flatMap (fun a => [f a]) = l.map f := by
  induction l with
  | nil => rfl
  | cons a as ih => rw [List.flatMap_cons, List.map_cons, ih]; rfl

theorem columns_emptyFrame (names : List String) :
    (emptyFrame names).columns = names := by
  unfold emptyFrame DataFrame.columns
  rw [List.map_map]
  exact (List.map_congr_left (fun a _ => rfl)).trans (List.map_id names)

theorem columns_dropColumns (df : DataFrame) (labels : List String) :
    (dropColumns df labels).columns =
      df.columns.filter (fun n => !(labels.contains n)) := by
  unfold dropColumns DataFrame.columns
  rw [List.filter_map]
  rfl

theorem mem_columns_selectColumns (df : DataFrame) (labels : List String)
    (x : String) :
    x ∈ (selectColumns df labels).columns ↔ x ∈ labels ∧ x ∈ df.columns := by
  rw [columns_selectColumns, List.mem_flatMap]
  constructor
  · rintro ⟨l, hl, hx⟩
    obtain ⟨hxc, hbeq⟩ := List.mem_filter.mp hx
    exact ⟨(eq_of_beq hbeq) ▸ hl, hxc⟩
  · rintro ⟨hxl, hxc⟩
    exact ⟨x, hxl, List.mem_filter.mpr ⟨hxc, by simp⟩⟩

/-- Filtering a concatenation of label-homogeneous blocks for one label
of a duplicate-free label list recovers exactly that label's block. -/
theorem filter_name_flatMap (F : String → List Col)
    (hF : ∀ l c, c ∈ F l → c.name = l) (valid : List String)
    (hnd : valid.Nodup) (l : String) :
    (valid.flatMap F).filter (fun c => c.name == l) =
      if l ∈ valid then F l else [] := by
  induction valid with
  | nil => simp
  | cons a as ih =>
    obtain ⟨ha, has⟩ := List.nodup_cons.mp hnd
    rw [List.flatMap_cons, List.filter_append, ih has]
    by_cases hla : l = a
    · rw [hla, List.filter_eq_self.mpr (fun c hc => by simp [hF a c hc]),
        if_neg ha, if_pos (List.mem_cons_self a as), List.append_nil]
    · rw [List.filter_eq_nil_iff.mpr
        (fun c hc hbeq => hla ((hF a c hc).symm.trans (eq_of_beq hbeq)).symm)]
      by_cases hlas : l ∈ as
      · rw [if_pos hlas, if_pos (List.mem_cons_of_mem a hlas)]
        rfl
      · rw [if_neg hlas, if_neg (by
          intro hc
          rcases List.mem_cons.mp hc with h | h
          · exact hla h
          · exact hlas h)]
        rfl

/-! ## Claims about the Column Shaper -/

/-- C1 (counterexample): shaping `T` with columns `["a","b"]` by
`include=["b","a"]` yields columns `["b","a"]` — the caller's order —
whereas the claim demands the table's original order `["a","b"]`. -/
theorem include_order_counterexample :
    get_shaped_dataframe ⟨[⟨"a", [.int 1]⟩, ⟨"b", [.int 2]⟩], .single none [.int 0]⟩
        (some ["b", "a"]) none =
      .ok ⟨[⟨"b", [.int 2]⟩, ⟨"a", [.int 1]⟩], .single none [.int 0]⟩ ∧
    (⟨[⟨"b", [.int 2]⟩, ⟨"a", [.int 1]⟩], .single none [.int 0]⟩ : DataFrame).columns ≠
      ["a", "b"] := by
  decide

/-- C1 (amended): for a table with duplicate-free column names and an
include list that intersects them, shaping succeeds and the result's
columns are exactly the include-list entries that exist in the table, in
the order of the caller's include list (not the table's column order). -/
theorem include_intersection_in_request_order (T : DataFrame) (I : List String)
    (exc : Option (List String)) (hnd : T.columns.Nodup)
    (hne : I.filter (fun c => T.columns.contains c) ≠ []) :
    ∃ T2, get_shaped_dataframe T (some I) exc = .ok T2 ∧
      T2.columns = I.filter (fun c => T.columns.contains c) := by
  refine ⟨selectColumns T (I.filter (fun c => T.columns.contains c)), ?_, ?_⟩
  · unfold get_shaped_dataframe
    simp only [List.isEmpty_eq_false.mpr hne, Bool.false_eq_true, if_neg,
      ite_false]
    exact selectColumnsE_filter_ok T I
  · rw [columns_selectColumns]
    have : ∀ l ∈ I.filter (fun c => T.columns.contains c),
        T.columns.filter (fun x => x == l) = [l] := by
      intro l hl
      exact filter_beq_of_nodup hnd (List.elem_iff.mp (List.mem_filter.mp hl).2)
    rw [List.flatMap_congr this, List.flatMap_singleton']

theorem include_intersection_in_request_order_witness :
    ∃ T2, get_shaped_dataframe ⟨[⟨"a", [.int 1]⟩, ⟨"b", [.int 2]⟩], .single none [.int 0]⟩
        (some ["b", "a"]) none = .ok T2 ∧
      T2.columns = (["b", "a"] : List String).filter
        (fun c => (⟨[⟨"a", [.int 1]⟩, ⟨"b", [.int 2]⟩], .single none [.int 0]⟩ :
          DataFrame).columns.contains c) :=
  include_intersection_in_request_order _ _ none (by decide) (by decide)

/-- C4: when none of a non-empty include list exists in the table, the
shaper returns `pd.DataFrame(columns=include_columns)`: the full
requested list as declared columns, zero rows, no data. -/
theorem empty_intersection_empty_frame (T : DataFrame) (I : List String)
    (exc : Option (List String)) (hne : I ≠ [])
    (hdisj : ∀ c ∈ I, c ∉ T.columns) :
    get_shaped_dataframe T (some I) exc = .ok (emptyFrame I) ∧
      (emptyFrame I).columns = I ∧ (emptyFrame I).index.length = 0 := by
  have hfil : I.filter (fun c => T.columns.contains c) = [] := by
    rw [List.filter_eq_nil_iff]
    intro a ha hc
    exact hdisj a ha (List.elem_iff.mp hc)
  refine ⟨?_, ?_, rfl⟩
  · unfold get_shaped_dataframe
    simp only [hfil, List.isEmpty_nil, if_true, List.isEmpty_eq_false.mpr hne,
      Bool.not_false, if_pos]
  · unfold emptyFrame DataFrame.columns
    rw [List.map_map]
    exact (List.map_congr_left (fun a _ => rfl)).trans (List.map_id I)

theorem empty_intersection_empty_frame_witness :
    get_shaped_dataframe ⟨[⟨"a", [.int 1]⟩], .single none [.int 0]⟩
        (some ["nonexistent"]) none = .ok (emptyFrame ["nonexistent"]) ∧
      (emptyFrame ["nonexistent"]).columns = ["nonexistent"] ∧
      (emptyFrame ["nonexistent"]).index.length = 0 :=
  empty_intersection_empty_frame _ _ none (by decide) (by decide)

/-- C6: a non-empty include list takes full precedence: shaping with both
an include and an exclude list is literally the same computation as
shaping with the include list alone — the exclude argument is never
inspected on that path. -/
theorem include_overrides_exclude (T : DataFrame) (I E : List String)
    (hI : I ≠ []) (hE : E ≠ []) :
    get_shaped_dataframe T (some I) (some E) =
      get_shaped_dataframe T (some I) none := rfl

theorem include_overrides_exclude_witness :
    get_shaped_dataframe ⟨[⟨"a", [.int 1]⟩], .single none [.int 0]⟩
        (some ["a"]) (some ["b"]) =
      get_shaped_dataframe ⟨[⟨"a", [.int 1]⟩], .single none [.int 0]⟩
        (some ["a"]) none :=
  include_overrides_exclude _ ["a"] ["b"] (by decide) (by decide)

/-- C7: the shaper is total — for every table and every combination of
include/exclude arguments it returns a table, never an error: each
library call it makes is only reached with arguments already validated
against the column axis. -/
theorem get_shaped_dataframe_total (T : DataFrame)
    (includeCols excludeCols : Option (List String)) :
    ∃ T2, get_shaped_dataframe T includeCols excludeCols = .ok T2 := by
  unfold get_shaped_dataframe
  cases includeCols with
  | some inc =>
    cases h : (inc.filter (fun c => T.columns.contains c)).isEmpty with
    | true =>
      cases h2 : inc.isEmpty with
      | true => exact ⟨T, by simp only [h, h2]; rfl⟩
      | false => exact ⟨emptyFrame inc, by simp only [h, h2]; rfl⟩
    | false =>
      refine ⟨selectColumns T (inc.filter (fun c => T.columns.contains c)), ?_⟩
      simp only [h, Bool.false_eq_true, if_false]
      exact selectColumnsE_filter_ok T inc
  | none =>
    cases excludeCols with
    | some exc =>
      cases h : (exc.filter (fun c => T.columns.contains c)).isEmpty with
      | true => exact ⟨T, by simp only [h]; rfl⟩
      | false =>
        refine ⟨dropColumns T (exc.filter (fun c => T.columns.contains c)), ?_⟩
        simp only [h, Bool.not_false, if_true]
        exact dropColumnsE_filter_ok T exc
    | none => exact ⟨T, rfl⟩

/-- C10: an include argument that is present but empty returns the full
copied table, and the exclude list is never reached: the include branch
is taken (the argument is not None), its empty intersection skips the
selection, and the emptiness of the include list skips the
empty-frame return, falling through to `return current_df`. -/
theorem empty_include_ignores_exclude (T : DataFrame) (E : List String)
    (hE : E ≠ []) :
    get_shaped_dataframe T (some []) (some E) = .ok T := rfl

theorem empty_include_ignores_exclude_witness :
    get_shaped_dataframe ⟨[⟨"a", [.int 1]⟩], .single none [.int 0]⟩
        (some []) (some ["a"]) =
      .ok ⟨[⟨"a", [.int 1]⟩], .single none [.int 0]⟩ :=
  empty_include_ignores_exclude _ ["a"] (by decide)

/-! ## Idempotence of shaping -/

theorem contains_eq_false {l : List String} {a : String} (h : a ∉ l) :
    l.contains a = false := by
  cases hc : l.contains a with
  | false => rfl
  | true => exact absurd (List.elem_iff.mp hc) h

/-- Closed-form evaluation of the include branch of the shaper. -/
theorem get_shaped_include_eval (T : DataFrame) (inc : List String)
    (exc : Option (List String)) :
    get_shaped_dataframe T (some inc) exc =
      if (inc.filter (fun c => T.columns.contains c)).isEmpty then
        (if inc.isEmpty then .ok T else .ok (emptyFrame inc))
      else .ok (selectColumns T (inc.filter (fun c => T.columns.contains c))) := by
  show (if (inc.filter (fun c => T.columns.contains c)).isEmpty = true then
      (if (!inc.isEmpty) = true then Except.ok (emptyFrame inc) else Except.ok T)
    else selectColumnsE T (inc.filter (fun c => T.columns.contains c))) = _
  cases hfil : (inc.filter (fun c => T.columns.contains c)).isEmpty with
  | true =>
    cases hinc : inc.isEmpty with
    | true => rfl
    | false => rfl
  | false =>
    rw [if_neg Bool.false_ne_true, if_neg Bool.false_ne_true]
    exact selectColumnsE_filter_ok T inc

/-- Closed-form evaluation of the exclude branch of the shaper. -/
theorem get_shaped_exclude_eval (T : DataFrame) (exc : List String) :
    get_shaped_dataframe T none (some exc) =
      if (exc.filter (fun c => T.columns.contains c)).isEmpty then .ok T
      else .ok (dropColumns T (exc.filter (fun c => T.columns.contains c))) := by
  show (if (!(exc.filter (fun c => T.columns.contains c)).isEmpty) = true then
      dropColumnsE T (exc.filter (fun c => T.columns.contains c))
    else Except.ok T) = _
  cases hfx : (exc.filter (fun c => T.columns.contains c)).isEmpty with
  | true => rfl
  | false =>
    rw [if_neg Bool.false_ne_true]
    exact dropColumnsE_filter_ok T exc

/-- Selecting a duplicate-free label list from the empty frame declared
with exactly those labels returns that frame unchanged. -/
theorem select_emptyFrame_self (inc : List String) (hnd : inc.Nodup) :
    selectColumns (emptyFrame inc) inc = emptyFrame inc := by
  unfold selectColumns emptyFrame
  simp only [DataFrame.mk.injEq]
  refine ⟨?_, trivial⟩
  have hone : ∀ l ∈ inc,
      ((inc.map (fun n => Col.mk n [])).filter (fun c => c.name == l)) =
        [Col.mk l []] := by
    intro l hl
    rw [List.filter_map]
    have heq : inc.filter ((fun c => c.name == l) ∘ (fun n => Col.mk n [])) =
        inc.filter (fun x => x == l) := List.filter_congr (fun x _ => rfl)
    rw [heq, filter_beq_of_nodup hnd hl]
    rfl
  rw [List.flatMap_congr hone, flatMap_singleton_map]

/-- Label selection with a duplicate-free label list is idempotent. -/
theorem selectColumns_idem (df : DataFrame) (valid : List String)
    (hnd : valid.Nodup) :
    selectColumns (selectColumns df valid) valid = selectColumns df valid := by
  unfold selectColumns
  simp only [DataFrame.mk.injEq]
  refine ⟨?_, trivial⟩
  refine List.flatMap_congr (fun l hl => ?_)
  rw [filter_name_flatMap (fun l2 => df.cols.filter (fun c => c.name == l2))
      (fun l2 c hc => eq_of_beq (List.mem_filter.mp hc).2) valid hnd l,
    if_pos hl]

/-- C8 (counterexample): with the duplicated include list `["a","a"]`,
shaping once duplicates the `"a"` column, and shaping the result again
with the same spec doubles it once more (label-based selection returns
every column matching each requested label), so shaping is not idempotent
for that spec. -/
theorem shaping_idempotence_counterexample :
    get_shaped_dataframe ⟨[⟨"a", [.int 1]⟩], .single none [.int 0]⟩
        (some ["a", "a"]) none =
      .ok ⟨[⟨"a", [.int 1]⟩, ⟨"a", [.int 1]⟩], .single none [.int 0]⟩ ∧
    get_shaped_dataframe ⟨[⟨"a", [.int 1]⟩, ⟨"a", [.int 1]⟩], .single none [.int 0]⟩
        (some ["a", "a"]) none ≠
      .ok ⟨[⟨"a", [.int 1]⟩, ⟨"a", [.int 1]⟩], .single none [.int 0]⟩ := by
  decide

/-- C8 (amended): shaping is idempotent for every specification whose
include list (when present) is duplicate-free: re-shaping the shaped
table with the same include/exclude arguments returns it unchanged. -/
theorem shaping_idempotent_nodup_include (T : DataFrame)
    (includeCols excludeCols : Option (List String))
    (hnd : ∀ l, includeCols = some l → l.Nodup) (T2 : DataFrame)
    (h : get_shaped_dataframe T includeCols excludeCols = .ok T2) :
    get_shaped_dataframe T2 includeCols excludeCols = .ok T2 := by
  cases includeCols with
  | some inc =>
    have hndi : inc.Nodup := hnd inc rfl
    rw [get_shaped_include_eval] at h
    rw [get_shaped_include_eval]
    cases hfil : (inc.filter (fun c => T.columns.contains c)).isEmpty with
    | true =>
      cases hinc : inc.isEmpty with
      | true =>
        obtain rfl : inc = [] := List.isEmpty_eq_true.mp hinc
        obtain rfl : T = T2 := Except.ok.inj h
        rfl
      | false =>
        rw [hfil, if_pos rfl, hinc, if_neg Bool.false_ne_true] at h
        obtain rfl : emptyFrame inc = T2 := Except.ok.inj h
        have hvalid : inc.filter (fun c => (emptyFrame inc).columns.contains c) = inc := by
          refine List.filter_eq_self.mpr (fun a ha => ?_)
          rw [columns_emptyFrame]
          exact List.elem_iff.mpr ha
        rw [hvalid, hinc, if_neg Bool.false_ne_true]
        exact congrArg Except.ok (select_emptyFrame_self inc hndi)
    | false =>
      rw [hfil, if_neg Bool.false_ne_true] at h
      obtain rfl : selectColumns T (inc.filter (fun c => T.columns.contains c)) = T2 :=
        Except.ok.inj h
      set valid := inc.filter (fun c => T.columns.contains c) with hvdef
      have hvnodup : valid.Nodup := hndi.filter _
      have hC : inc.filter (fun c => (selectColumns T valid).columns.contains c) = valid := by
        rw [hvdef]
        refine List.filter_congr (fun x hx => ?_)
        cases hcx : T.columns.contains x with
        | true =>
          have hxv : x ∈ inc.filter (fun c => T.columns.contains c) :=
            List.mem_filter.mpr ⟨hx, hcx⟩
          exact List.elem_iff.mpr
            ((mem_columns_selectColumns T _ x).mpr ⟨hxv, List.elem_iff.mp hcx⟩)
        | false =>
          refine contains_eq_false (fun hm => ?_)
          have hxT := ((mem_columns_selectColumns T _ x).mp hm).2
          have hct : T.columns.contains x = true := List.elem_iff.mpr hxT
          rw [hct] at hcx
          exact absurd hcx (by decide)
      rw [hC, hfil, if_neg Bool.false_ne_true]
      exact congrArg Except.ok (selectColumns_idem T valid hvnodup)
  | none =>
    cases excludeCols with
    | some exc =>
      rw [get_shaped_exclude_eval] at h
      rw [get_shaped_exclude_eval]
      cases hfx : (exc.filter (fun c => T.columns.contains c)).isEmpty with
      | true =>
        rw [hfx, if_pos rfl] at h
        obtain rfl : T = T2 := Except.ok.inj h
        rw [hfx, if_pos rfl]
      | false =>
        rw [hfx, if_neg Bool.false_ne_true] at h
        obtain rfl : dropColumns T (exc.filter (fun c => T.columns.contains c)) = T2 :=
          Except.ok.inj h
        set validEx := exc.filter (fun c => T.columns.contains c) with hvdef
        have hnil : exc.filter
            (fun c => (dropColumns T validEx).columns.contains c) = [] := by
          rw [List.filter_eq_nil_iff]
          intro a ha hcon
          have hmem := List.elem_iff.mp hcon
          rw [columns_dropColumns] at hmem
          obtain ⟨haT, hnotin⟩ := List.mem_filter.mp hmem
          have hin : a ∈ validEx := by
            rw [hvdef]
            exact List.mem_filter.mpr ⟨ha, List.elem_iff.mpr haT⟩
          have hct : validEx.contains a = true := List.elem_iff.mpr hin
          rw [hct] at hnotin
          exact absurd hnotin (by decide)
        rw [hnil]
        rfl
    | none =>
      obtain rfl : T = T2 := Except.ok.inj h
      rfl

theorem shaping_idempotent_nodup_include_witness :
    get_shaped_dataframe ⟨[⟨"b", [.int 2]⟩], .single none [.int 0]⟩
        (some ["b"]) none = .ok ⟨[⟨"b", [.int 2]⟩], .single none [.int 0]⟩ :=
  shaping_idempotent_nodup_include
    ⟨[⟨"a", [.int 1]⟩, ⟨"b", [.int 2]⟩], .single none [.int 0]⟩
    (some ["b"]) none (by intro l hl; cases hl; decide) _ (by decide)

/-! ## Frame condition of the shaper (heap model) -/

theorem readRef_append_new (σ : Store) (d : DataFrame) :
    readRef (σ ++ [d]) σ.length = d := by
  unfold readRef
  rw [List.getD_eq_getElem _ _ (by simp)]
  exact List.getElem_concat_length σ d σ.length rfl _

theorem readRef_append_old (σ : Store) (d : DataFrame) (r : Nat)
    (h : r < σ.length) :
    readRef (σ ++ [d]) r = readRef σ r := by
  unfold readRef
  exact List.getD_append σ [d] _ r h

/-- The heap run of the shaper either returns the fresh copy it makes of
the input (one allocation), or allocates one further frame holding
exactly the pure shaper's result. -/
theorem get_shaped_heap_cases (σ : Store) (r : Nat)
    (includeCols excludeCols : Option (List String)) :
    (get_shaped_dataframe_heap σ r includeCols excludeCols =
        (σ ++ [readRef σ r], σ.length) ∧
      get_shaped_dataframe (readRef σ r) includeCols excludeCols =
        .ok (readRef σ r)) ∨
    (∃ d, get_shaped_dataframe_heap σ r includeCols excludeCols =
        (σ ++ [readRef σ r] ++ [d], σ.length + 1) ∧
      get_shaped_dataframe (readRef σ r) includeCols excludeCols = .ok d) := by
  have hread := readRef_append_new σ (readRef σ r)
  cases includeCols with
  | some inc =>
    have hH : get_shaped_dataframe_heap σ r (some inc) excludeCols =
        (if (inc.filter (fun c =>
            (readRef (σ ++ [readRef σ r]) σ.length).columns.contains c)).isEmpty then
          (if !inc.isEmpty then
            alloc (σ ++ [readRef σ r]) (emptyFrame inc)
          else (σ ++ [readRef σ r], σ.length))
        else
          alloc (σ ++ [readRef σ r])
            (selectColumns (readRef (σ ++ [readRef σ r]) σ.length)
              (inc.filter (fun c =>
                (readRef (σ ++ [readRef σ r]) σ.length).columns.contains c)))) := rfl
    rw [hread] at hH
    rw [hH, get_shaped_include_eval]
    cases hfil : (inc.filter (fun c => (readRef σ r).columns.contains c)).isEmpty with
    | true =>
      cases hinc : inc.isEmpty with
      | true => exact Or.inl ⟨rfl, rfl⟩
      | false =>
        refine Or.inr ⟨emptyFrame inc, ?_, rfl⟩
        show alloc (σ ++ [readRef σ r]) (emptyFrame inc) =
          (σ ++ [readRef σ r] ++ [emptyFrame inc], σ.length + 1)
        unfold alloc
        rw [List.length_append]; rfl
    | false =>
      refine Or.inr ⟨selectColumns (readRef σ r)
        (inc.filter (fun c => (readRef σ r).columns.contains c)), ?_, rfl⟩
      show alloc (σ ++ [readRef σ r]) _ = _
      unfold alloc
      rw [List.length_append]; rfl
  | none =>
    cases excludeCols with
    | some exc =>
      have hH : get_shaped_dataframe_heap σ r none (some exc) =
          (if !(exc.filter (fun c =>
              (readRef (σ ++ [readRef σ r]) σ.length).columns.contains c)).isEmpty then
            alloc (σ ++ [readRef σ r])
              (dropColumns (readRef (σ ++ [readRef σ r]) σ.length)
                (exc.filter (fun c =>
                  (readRef (σ ++ [readRef σ r]) σ.length).columns.contains c)))
          else (σ ++ [readRef σ r], σ.length)) := rfl
      rw [hread] at hH
      rw [hH, get_shaped_exclude_eval]
      cases hfx : (exc.filter (fun c => (readRef σ r).columns.contains c)).isEmpty with
      | true => exact Or.inl ⟨rfl, rfl⟩
      | false =>
        refine Or.inr ⟨dropColumns (readRef σ r)
          (exc.filter (fun c => (readRef σ r).columns.contains c)), ?_, rfl⟩
        show alloc (σ ++ [readRef σ r]) _ = _
        unfold alloc
        rw [List.length_append]; rfl
    | none => exact Or.inl ⟨rfl, rfl⟩

/-- C9: the shaper mutates nothing and returns a fresh table: running it
over a store leaves every pre-existing object unchanged (in particular
the input frame is read back intact), the returned reference is freshly
allocated — never the input object — and the frame it points to is the
pure shaper's result on the input frame (copy-on-shape). -/
theorem get_shaped_dataframe_no_mutation (σ : Store) (r : Nat)
    (includeCols excludeCols : Option (List String)) (hr : r < σ.length) :
    (get_shaped_dataframe_heap σ r includeCols excludeCols).1.take σ.length = σ ∧
    σ.length ≤ (get_shaped_dataframe_heap σ r includeCols excludeCols).2 ∧
    (get_shaped_dataframe_heap σ r includeCols excludeCols).2 ≠ r ∧
    readRef (get_shaped_dataframe_heap σ r includeCols excludeCols).1 r =
      readRef σ r ∧
    get_shaped_dataframe (readRef σ r) includeCols excludeCols =
      .ok (readRef (get_shaped_dataframe_heap σ r includeCols excludeCols).1
        (get_shaped_dataframe_heap σ r includeCols excludeCols).2) := by
  rcases get_shaped_heap_cases σ r includeCols excludeCols with
    ⟨hH, hP⟩ | ⟨d, hH, hP⟩
  · refine ⟨?_, ?_, ?_, ?_, ?_⟩
    · rw [hH]; exact List.take_left σ [readRef σ r]
    · rw [hH]
    · rw [hH]; exact (Nat.ne_of_lt hr).symm
    · rw [hH]; exact readRef_append_old σ _ r hr
    · rw [hH]
      show get_shaped_dataframe (readRef σ r) includeCols excludeCols =
        .ok (readRef (σ ++ [readRef σ r]) σ.length)
      rw [readRef_append_new]
      exact hP
  · have hlen : (σ ++ [readRef σ r]).length = σ.length + 1 := by
      rw [List.length_append]; rfl
    refine ⟨?_, ?_, ?_, ?_, ?_⟩
    · rw [hH]
      show (σ ++ [readRef σ r] ++ [d]).take σ.length = σ
      rw [List.append_assoc]
      exact List.take_left σ _
    · rw [hH]; exact Nat.le_succ_of_le (Nat.le_refl σ.length)
    · rw [hH]
      exact (Nat.ne_of_lt (Nat.lt_succ_of_lt hr)).symm
    · rw [hH]
      show readRef (σ ++ [readRef σ r] ++ [d]) r = readRef σ r
      rw [readRef_append_old _ _ r (by rw [hlen]; exact Nat.lt_succ_of_lt hr),
        readRef_append_old σ _ r hr]
    · rw [hH]
      show get_shaped_dataframe (readRef σ r) includeCols excludeCols =
        .ok (readRef (σ ++ [readRef σ r] ++ [d]) (σ.length + 1))
      rw [← hlen, readRef_append_new]
      exact hP

theorem get_shaped_dataframe_no_mutation_witness :
    (get_shaped_dataframe_heap [⟨[⟨"a", [.int 1]⟩], .single none [.int 0]⟩] 0
        (some ["a"]) none).1.take 1 =
      [⟨[⟨"a", [.int 1]⟩], .single none [.int 0]⟩] ∧
    1 ≤ (get_shaped_dataframe_heap [⟨[⟨"a", [.int 1]⟩], .single none [.int 0]⟩] 0
        (some ["a"]) none).2 ∧
    (get_shaped_dataframe_heap [⟨[⟨"a", [.int 1]⟩], .single none [.int 0]⟩] 0
        (some ["a"]) none).2 ≠ 0 ∧
    readRef (get_shaped_dataframe_heap [⟨[⟨"a", [.int 1]⟩], .single none [.int 0]⟩] 0
        (some ["a"]) none).1 0 =
      readRef [⟨[⟨"a", [.int 1]⟩], .single none [.int 0]⟩] 0 ∧
    get_shaped_dataframe (readRef [⟨[⟨"a", [.int 1]⟩], .single none [.int 0]⟩] 0)
        (some ["a"]) none =
      .ok (readRef (get_shaped_dataframe_heap
          [⟨[⟨"a", [.int 1]⟩], .single none [.int 0]⟩] 0 (some ["a"]) none).1
        (get_shaped_dataframe_heap
          [⟨[⟨"a", [.int 1]⟩], .single none [.int 0]⟩] 0 (some ["a"]) none).2) :=
  get_shaped_dataframe_no_mutation
    [⟨[⟨"a", [.int 1]⟩], .single none [.int 0]⟩] 0 (some ["a"]) none (by decide)

/-! ## Claims about the split-table codec -/

theorem multiIndexFromTuples_ok_length (tuples : List (List Value))
    (names : Option (List (Option String))) (ix : PIndex)
    (h : multiIndexFromTuples tuples names = .ok ix) :
    ix.length = tuples.length := by
  cases tuples with
  | nil => exact Except.noConfusion h
  | cons t ts =>
    replace h : (if (ts.all (fun u => u.length == t.length)) = true then
        (match names with
         | none => Except.ok (PIndex.multi (List.replicate t.length none) (t :: ts))
         | some l =>
           if (l.length == t.length) = true then
             Except.ok (PIndex.multi l (t :: ts))
           else Except.error DecodeError.badIndexLevelNames)
      else Except.error DecodeError.badIndexTuples) = Except.ok ix := h
    cases hu : ts.all (fun u => u.length == t.length) with
    | false =>
      rw [hu, if_neg Bool.false_ne_true] at h
      exact Except.noConfusion h
    | true =>
      rw [hu, if_pos rfl] at h
      cases names with
      | none =>
        obtain rfl := (Except.ok.inj h).symm
        rfl
      | some l =>
        replace h : (if (l.length == t.length) = true then
            Except.ok (PIndex.multi l (t :: ts))
          else Except.error DecodeError.badIndexLevelNames) = Except.ok ix := h
        cases hl : (l.length == t.length) with
        | false =>
          rw [hl, if_neg Bool.false_ne_true] at h
          exact Except.noConfusion h
        | true =>
          rw [hl, if_pos rfl] at h
          obtain rfl := (Except.ok.inj h).symm
          rfl

/-- A successful index reconstruction from a non-empty `index` field
always yields an index with one label per entry. -/
theorem reconstructIndex_ok_length (e : IndexEntry) (es : List IndexEntry)
    (b : Bool) (names : Option (List (Option String))) (oix : Option PIndex)
    (h : reconstructIndex (e :: es) b names = .ok oix) :
    ∃ ix, oix = some ix ∧ ix.length = es.length + 1 := by
  cases e with
  | scalar v =>
    obtain rfl := (Except.ok.inj h).symm
    refine ⟨_, rfl, ?_⟩
    show ((IndexEntry.scalar v :: es).map IndexEntry.toLabel).length = es.length + 1
    rw [List.length_map]
    rfl
  | arr vs =>
    replace h : (if ((IndexEntry.arr vs :: es).all
          (fun e => match e with | .arr _ => true | .scalar _ => false)) = true then
        (multiIndexFromTuples ((IndexEntry.arr vs :: es).map IndexEntry.toTuple)
          names).map some
      else Except.error DecodeError.badIndexTuples) = Except.ok oix := h
    cases hall : (IndexEntry.arr vs :: es).all
        (fun e => match e with | .arr _ => true | .scalar _ => false) with
    | false =>
      rw [hall, if_neg Bool.false_ne_true] at h
      exact Except.noConfusion h
    | true =>
      rw [hall, if_pos rfl] at h
      cases hm : multiIndexFromTuples
          ((IndexEntry.arr vs :: es).map IndexEntry.toTuple) names with
      | error e2 =>
        rw [hm] at h
        exact Except.noConfusion h
      | ok ix =>
        rw [hm] at h
        obtain rfl := (Except.ok.inj h).symm
        refine ⟨ix, rfl, ?_⟩
        rw [multiIndexFromTuples_ok_length _ names ix hm, List.length_map]
        rfl

/-- C2 (counterexample): a data row shorter than the declared column list
does not make decode signal an error when another row has the full
width — pandas pads the short row with null/NaN and the decode succeeds,
contradicting the per-row rejection rule. -/
theorem ragged_row_decode_counterexample :
    ([Value.int 1] : List Value).length ≠ (["a", "b"] : List String).length ∧
    display_df_from_api_split_response
        ⟨[.scalar (.int 0), .scalar (.int 1)], ["a", "b"],
          [[.int 1], [.int 1, .int 2]]⟩ none [] =
      .ok ⟨[⟨"a", [.int 1, .int 1]⟩, ⟨"b", [.null, .int 2]⟩],
        .single none [.int 0, .int 1]⟩ := by
  decide

/-- `pd.DataFrame` rejects non-empty nested data whose widest row width
differs from the declared column count. -/
theorem buildDataFrame_width_mismatch (rows : List (List Value))
    (ridx : Option PIndex) (colNames : List String)
    (hne : rows ≠ []) (hw : colNames.length ≠ maxWidth rows) :
    buildDataFrame rows ridx colNames = .error .malformedSplitTable := by
  have hweq : (colNames.length == maxWidth rows) = false :=
    beq_eq_false_iff_ne.mpr hw
  cases ridx with
  | none =>
    show (if rows.isEmpty = true then
        Except.ok (⟨colNames.map (fun n => Col.mk n []),
          PIndex.single none []⟩ : DataFrame)
      else if (colNames.length == maxWidth rows) = true then
        Except.ok (⟨colNames.enum.map
            (fun p => Col.mk p.2 (rows.map (fun r => r.getD p.1 Value.null))),
          PIndex.single none
            ((List.range rows.length).map (fun i => Value.int (Int.ofNat i)))⟩ :
          DataFrame)
      else Except.error DecodeError.malformedSplitTable) =
      Except.error DecodeError.malformedSplitTable
    rw [List.isEmpty_eq_false.mpr hne, if_neg Bool.false_ne_true, hweq,
      if_neg Bool.false_ne_true]
  | some ix =>
    show (if rows.isEmpty = true then
        (if (ix.length == 0) = true then
          Except.ok (⟨colNames.map (fun n => Col.mk n []), ix⟩ : DataFrame)
        else Except.error DecodeError.malformedSplitTable)
      else if (colNames.length == maxWidth rows) = true then
        (if (ix.length == rows.length) = true then
          Except.ok (⟨colNames.enum.map
              (fun p => Col.mk p.2 (rows.map (fun r => r.getD p.1 Value.null))),
            ix⟩ : DataFrame)
        else Except.error DecodeError.malformedSplitTable)
      else Except.error DecodeError.malformedSplitTable) =
      Except.error DecodeError.malformedSplitTable
    rw [List.isEmpty_eq_false.mpr hne, if_neg Bool.false_ne_true, hweq,
      if_neg Bool.false_ne_true]

/-- `pd.DataFrame` rejects non-empty nested data when the supplied index
does not have exactly one label per row. -/
theorem buildDataFrame_index_mismatch (rows : List (List Value)) (ix : PIndex)
    (colNames : List String) (hne : rows ≠ []) (hlen : ix.length ≠ rows.length) :
    buildDataFrame rows (some ix) colNames = .error .malformedSplitTable := by
  show (if rows.isEmpty = true then
      (if (ix.length == 0) = true then
        Except.ok (⟨colNames.map (fun n => Col.mk n []), ix⟩ : DataFrame)
      else Except.error DecodeError.malformedSplitTable)
    else if (colNames.length == maxWidth rows) = true then
      (if (ix.length == rows.length) = true then
        Except.ok (⟨colNames.enum.map
            (fun p => Col.mk p.2 (rows.map (fun r => r.getD p.1 Value.null))),
          ix⟩ : DataFrame)
      else Except.error DecodeError.malformedSplitTable)
    else Except.error DecodeError.malformedSplitTable) =
    Except.error DecodeError.malformedSplitTable
  rw [List.isEmpty_eq_false.mpr hne, if_neg Bool.false_ne_true]
  cases hwc : (colNames.length == maxWidth rows) with
  | false => rw [if_neg Bool.false_ne_true]
  | true =>
    rw [if_pos rfl, beq_eq_false_iff_ne.mpr hlen, if_neg Bool.false_ne_true]

/-- C2 (amended): once the index field reconstructs, decode rejects with
`MalformedSplitTable` every input whose non-empty index disagrees in
length with a non-empty data matrix, and every input whose declared
column count differs from the width of the widest data row (rows present);
rows shorter than the widest are padded, not rejected. In particular the
claim's instance `{index:[1,2], columns:["a"], data:[[1]]}` is rejected. -/
theorem decode_rejects_shape_mismatch (st : SplitTable)
    (names : Option (List (Option String))) (cats : List String)
    (oix : Option PIndex)
    (hix : reconstructIndex st.index st.data.isEmpty names = .ok oix)
    (hbad : (st.index ≠ [] ∧ st.data ≠ [] ∧ st.index.length ≠ st.data.length) ∨
      (st.data ≠ [] ∧ st.columns.length ≠ maxWidth st.data)) :
    display_df_from_api_split_response st names cats =
      .error .malformedSplitTable := by
  have hdne : st.data ≠ [] := by
    rcases hbad with ⟨_, h2, _⟩ | ⟨h1, _⟩
    · exact h2
    · exact h1
  have hb : buildDataFrame st.data oix st.columns = .error .malformedSplitTable := by
    rcases hbad with ⟨hixne, _, hlen⟩ | ⟨_, hw⟩
    · cases hsi : st.index with
      | nil => exact absurd hsi hixne
      | cons e es =>
        rw [hsi] at hix
        obtain ⟨ix, rfl, hixlen⟩ :=
          reconstructIndex_ok_length e es st.data.isEmpty names oix hix
        refine buildDataFrame_index_mismatch st.data ix st.columns hdne ?_
        rw [hixlen]
        rw [hsi] at hlen
        exact hlen
    · exact buildDataFrame_width_mismatch st.data oix st.columns hdne hw
  show (reconstructIndex st.index st.data.isEmpty names >>= fun ridx =>
      buildDataFrame st.data ridx st.columns >>= fun df =>
      pure (stringifyCols df cats)) = .error .malformedSplitTable
  rw [hix]
  show (buildDataFrame st.data oix st.columns >>= fun df =>
      pure (stringifyCols df cats)) = .error .malformedSplitTable
  rw [hb]
  rfl

theorem decode_rejects_shape_mismatch_witness :
    display_df_from_api_split_response
        ⟨[.scalar (.int 1), .scalar (.int 2)], ["a"], [[.int 1]]⟩ none [] =
      .error .malformedSplitTable :=
  decode_rejects_shape_mismatch
    ⟨[.scalar (.int 1), .scalar (.int 2)], ["a"], [[.int 1]]⟩ none []
    (some (.single none [.int 1, .int 2])) (by decide)
    (Or.inl ⟨by decide, by decide, by decide⟩)

/-- C5 (counterexample): with a uniformly 2-level tuple index but a
one-element `index_level_names`, decode does not succeed with unnamed
levels — `MultiIndex.from_tuples` raises `ValueError` and the decode
fails. -/
theorem index_level_names_mismatch_counterexample :
    display_df_from_api_split_response
        ⟨[.arr [.str "a", .str "b"], .arr [.str "c", .str "d"]], ["v"],
          [[.int 1], [.int 2]]⟩ (some [some "x"]) [] =
      .error .badIndexLevelNames ∧
    ∀ d : DataFrame,
      display_df_from_api_split_response
          ⟨[.arr [.str "a", .str "b"], .arr [.str "c", .str "d"]], ["v"],
            [[.int 1], [.int 2]]⟩ (some [some "x"]) [] ≠ .ok d := by
  refine ⟨by decide, ?_⟩
  intro d hc
  rw [(by decide : display_df_from_api_split_response
      ⟨[.arr [.str "a", .str "b"], .arr [.str "c", .str "d"]], ["v"],
        [[.int 1], [.int 2]]⟩ (some [some "x"]) [] =
      .error .badIndexLevelNames)] at hc
  exact Except.noConfusion hc

/-- C5 (amended): for a non-empty index whose entries are all tuples of
one arity `k > 1`, decode builds a depth-`k` multi-level index, applying
the supplied level names component-wise when their number equals `k` and
leaving the levels unnamed when no names are supplied; but when names are
supplied with length different from `k`, decode fails with an error
instead of succeeding unnamed. -/
theorem multi_index_reconstruction (entries : List IndexEntry) (k : Nat)
    (b : Bool) (hne : entries ≠ [])
    (hall : ∀ e ∈ entries, ∃ vs, e = .arr vs ∧ vs.length = k)
    (hk : 1 < k) :
    (∀ l : List (Option String), l.length = k →
      reconstructIndex entries b (some l) =
        .ok (some (.multi l (entries.map IndexEntry.toTuple)))) ∧
    (reconstructIndex entries b none =
      .ok (some (.multi (List.replicate k none)
        (entries.map IndexEntry.toTuple)))) ∧
    (∀ l : List (Option String), l.length ≠ k →
      ∀ (cols : List String) (rows : List (List Value)) (cats : List String),
        display_df_from_api_split_response ⟨entries, cols, rows⟩
          (some l) cats = .error .badIndexLevelNames) := by
  cases entries with
  | nil => exact absurd rfl hne
  | cons e es =>
    obtain ⟨vs, rfl, hvk⟩ := hall e (List.mem_cons_self e es)
    have hallb : (IndexEntry.arr vs :: es).all
        (fun e => match e with | .arr _ => true | .scalar _ => false) = true := by
      rw [List.all_eq_true]
      intro x hx
      obtain ⟨vs2, rfl, _⟩ := hall x hx
      rfl
    have hmap : (IndexEntry.arr vs :: es).map IndexEntry.toTuple =
        vs :: es.map IndexEntry.toTuple := rfl
    have huni : (es.map IndexEntry.toTuple).all
        (fun u => u.length == vs.length) = true := by
      rw [List.all_eq_true]
      intro u hu
      obtain ⟨x, hx, rfl⟩ := List.mem_map.mp hu
      obtain ⟨vs2, rfl, hv2⟩ := hall x (List.mem_cons_of_mem _ hx)
      show (vs2.length == vs.length) = true
      rw [hv2, hvk]
      exact beq_self_eq_true k
    have hrec : ∀ (b2 : Bool) names,
        reconstructIndex (IndexEntry.arr vs :: es) b2 names =
          (multiIndexFromTuples (vs :: es.map IndexEntry.toTuple) names).map some := by
      intro b2 names
      show (if ((IndexEntry.arr vs :: es).all
            (fun e => match e with | .arr _ => true | .scalar _ => false)) = true then
          (multiIndexFromTuples ((IndexEntry.arr vs :: es).map IndexEntry.toTuple)
            names).map some
        else Except.error DecodeError.badIndexTuples) = _
      rw [hallb, if_pos rfl, hmap]
    refine ⟨?_, ?_, ?_⟩
    · intro l hl
      rw [hrec b (some l)]
      show ((if ((es.map IndexEntry.toTuple).all
            (fun u => u.length == vs.length)) = true then
          (if (l.length == vs.length) = true then
            Except.ok (PIndex.multi l (vs :: es.map IndexEntry.toTuple))
          else Except.error DecodeError.badIndexLevelNames)
        else Except.error DecodeError.badIndexTuples)).map some = _
      have hlv : (l.length == vs.length) = true := by
        rw [hl, hvk]
        exact beq_self_eq_true k
      rw [huni, if_pos rfl, hlv, if_pos rfl]
      rfl
    · rw [hrec b none]
      show ((if ((es.map IndexEntry.toTuple).all
            (fun u => u.length == vs.length)) = true then
          Except.ok (PIndex.multi (List.replicate vs.length none)
            (vs :: es.map IndexEntry.toTuple))
        else Except.error DecodeError.badIndexTuples)).map some = _
      rw [huni, if_pos rfl, hvk]
      rfl
    · intro l hl cols rows cats
      have herr : reconstructIndex (IndexEntry.arr vs :: es) rows.isEmpty (some l) =
          .error .badIndexLevelNames := by
        rw [hrec rows.isEmpty (some l)]
        show ((if ((es.map IndexEntry.toTuple).all
              (fun u => u.length == vs.length)) = true then
            (if (l.length == vs.length) = true then
              Except.ok (PIndex.multi l (vs :: es.map IndexEntry.toTuple))
            else Except.error DecodeError.badIndexLevelNames)
          else Except.error DecodeError.badIndexTuples)).map some = _
        have hlv : (l.length == vs.length) = false := by
          refine beq_eq_false_iff_ne.mpr ?_
          rw [hvk]
          exact hl
        rw [huni, if_pos rfl, hlv, if_neg Bool.false_ne_true]
        rfl
      show (reconstructIndex (IndexEntry.arr vs :: es) rows.isEmpty (some l) >>=
          fun ridx => buildDataFrame rows ridx cols >>= fun df =>
          pure (stringifyCols df cats)) = .error .badIndexLevelNames
      rw [herr]
      rfl

theorem multi_index_reconstruction_witness :
    reconstructIndex [.arr [.str "a", .str "b"], .arr [.str "c", .str "d"]]
        false (some [some "cut", some "color"]) =
      .ok (some (.multi [some "cut", some "color"]
        [[.str "a", .str "b"], [.str "c", .str "d"]])) :=
  (multi_index_reconstruction
    [.arr [.str "a", .str "b"], .arr [.str "c", .str "d"]] 2 false
    (by decide)
    (by
      intro e he
      rcases List.mem_cons.mp he with rfl | he2
      · exact ⟨[.str "a", .str "b"], rfl, rfl⟩
      · rcases List.mem_cons.mp he2 with rfl | he3
        · exact ⟨[.str "c", .str "d"], rfl, rfl⟩
        · cases he3)
    (by decide)).1 [some "cut", some "color"] rfl

/-! ## Round trip of the codec -/

theorem maxWidth_const (rows : List (List Value)) (w : Nat) (hne : rows ≠ [])
    (hall : ∀ r ∈ rows, r.length = w) : maxWidth rows = w := by
  induction rows with
  | nil => exact absurd rfl hne
  | cons r rs ih =>
    show max r.length (maxWidth rs) = w
    rw [hall r (List.mem_cons_self r rs)]
    cases rs with
    | nil => show max w 0 = w; exact Nat.max_zero w
    | cons r2 rs2 =>
      rw [ih (by intro hc; cases hc)
        (fun r3 h3 => hall r3 (List.mem_cons_of_mem _ h3))]
      exact Nat.max_self w

theorem map_range_getD {α : Type} (l : List α) (d : α) :
    (List.range l.length).map (fun i => l.getD i d) = l := by
  induction l with
  | nil => rfl
  | cons a as ih =>
    rw [List.length_cons, List.range_succ_eq_map, List.map_cons, List.map_map]
    have h2 : List.map ((fun i => (a :: as).getD i d) ∘ Nat.succ)
        (List.range as.length) = List.map (fun i => as.getD i d)
        (List.range as.length) :=
      List.map_congr_left (fun i _ => List.getD_cons_succ)
    rw [List.getD_cons_zero, h2, ih]

/-- Transposing a table to row-major form and back recovers the original
columns (the core of the `to_dict("split")` / `pd.DataFrame` round trip). -/
theorem rebuild_cols (cs : List Col) (n : Nat)
    (hlen : ∀ c ∈ cs, c.values.length = n) :
    (cs.map Col.name).enum.map
      (fun p => Col.mk p.2
        (((List.range n).map
            (fun i => cs.map (fun c => c.values.getD i Value.null))).map
          (fun r => r.getD p.1 Value.null))) = cs := by
  apply List.ext_getElem
  · rw [List.length_map, List.enum_length, List.length_map]
  · intro j h1 h2
    simp only [List.getElem_map, List.getElem_enum]
    have hvals : ((List.range n).map
        (fun i => cs.map (fun c => c.values.getD i Value.null))).map
          (fun r => r.getD j Value.null) = (cs[j]).values := by
      rw [List.map_map]
      have hfun : ∀ i ∈ List.range n,
          ((fun r => r.getD j Value.null) ∘
            (fun i => cs.map (fun c => c.values.getD i Value.null))) i =
            (cs[j]).values.getD i Value.null := by
        intro i _
        show (cs.map (fun c => c.values.getD i Value.null)).getD j Value.null =
          (cs[j]).values.getD i Value.null
        rw [List.getD_eq_getElem _ _ (by rw [List.length_map]; exact h2),
          List.getElem_map]
      rw [List.map_congr_left hfun]
      have hlenj : (cs[j]).values.length = n := hlen _ (List.getElem_mem h2)
      rw [← hlenj]
      exact map_range_getD _ _
    rw [hvals]

/-- `pd.DataFrame` on the row-major transport form of a table, with the
table's own index, rebuilds the table. -/
theorem buildDataFrame_encode_ok (cs : List Col) (ix : PIndex)
    (hlen : ∀ c ∈ cs, c.values.length = ix.length) (hn : 1 ≤ ix.length) :
    buildDataFrame
      ((List.range ix.length).map
        (fun i => cs.map (fun c => c.values.getD i Value.null)))
      (some ix) (cs.map Col.name) = .ok ⟨cs, ix⟩ := by
  set rows := (List.range ix.length).map
    (fun i => cs.map (fun c => c.values.getD i Value.null)) with hrows
  have hrlen : rows.length = ix.length := by
    rw [hrows, List.length_map, List.length_range]
  have hrne : rows ≠ [] := by
    intro hc
    rw [hc] at hrlen
    rw [← hrlen] at hn
    exact absurd hn (by decide)
  have hrw : ∀ r ∈ rows, r.length = cs.length := by
    intro r hr
    rw [hrows] at hr
    obtain ⟨i, _, rfl⟩ := List.mem_map.mp hr
    exact List.length_map cs _
  have hwidth : maxWidth rows = cs.length := maxWidth_const rows cs.length hrne hrw
  show (if rows.isEmpty = true then
      (if (ix.length == 0) = true then
        Except.ok (⟨(cs.map Col.name).map (fun n2 => Col.mk n2 []), ix⟩ : DataFrame)
      else Except.error DecodeError.malformedSplitTable)
    else if ((cs.map Col.name).length == maxWidth rows) = true then
      (if (ix.length == rows.length) = true then
        Except.ok (⟨(cs.map Col.name).enum.map
            (fun p => Col.mk p.2 (rows.map (fun r => r.getD p.1 Value.null))),
          ix⟩ : DataFrame)
      else Except.error DecodeError.malformedSplitTable)
    else Except.error DecodeError.malformedSplitTable) =
    Except.ok (⟨cs, ix⟩ : DataFrame)
  rw [List.isEmpty_eq_false.mpr hrne, if_neg Bool.false_ne_true]
  have hwb : ((cs.map Col.name).length == maxWidth rows) = true := by
    rw [List.length_map, hwidth]
    exact beq_self_eq_true _
  rw [hwb, if_pos rfl]
  have hlb : (ix.length == rows.length) = true := by
    rw [hrlen]
    exact beq_self_eq_true _
  rw [hlb, if_pos rfl]
  refine congrArg Except.ok ?_
  rw [DataFrame.mk.injEq]
  refine ⟨?_, rfl⟩
  rw [hrows]
  exact rebuild_cols cs ix.length hlen

/-- The stringification step is the identity when no categorical columns
are configured. -/
theorem stringifyCols_nil (d : DataFrame) : stringifyCols d [] = d := by
  unfold stringifyCols
  have hmap : d.cols.map (fun c =>
      if ([] : List String).contains c.name then
        Col.mk c.name (c.values.map (fun v => Value.str (valueToString v)))
      else c) = d.cols := by
    refine (List.map_congr_left (fun c _ => ?_)).trans (List.map_id _)
    show (if ([] : List String).contains c.name = true then
        Col.mk c.name (c.values.map (fun v => Value.str (valueToString v)))
      else c) = c
    rw [if_neg (show ¬(([] : List String).contains c.name = true) from
      fun hc => Bool.false_ne_true hc)]
  rw [hmap]

/-- Reconstruction of an encoded single-level index with its own name
supplied recovers the index. -/
theorem reconstruct_encode_single (nm : Option String) (ls : List Value)
    (hne : ls ≠ []) (hnt : ∀ v ∈ ls, v.isTup = false) (b : Bool) :
    reconstructIndex (ls.map (fun v =>
        match v with
        | .tup vs => IndexEntry.arr vs
        | v => IndexEntry.scalar v)) b (some [nm]) =
      .ok (some (.single nm ls)) := by
  have hmap : ls.map (fun v =>
      match v with
      | .tup vs => IndexEntry.arr vs
      | v => IndexEntry.scalar v) = ls.map IndexEntry.scalar := by
    refine List.map_congr_left (fun v hv => ?_)
    have hv2 := hnt v hv
    cases v with
    | tup vs => exact absurd hv2 (by simp [Value.isTup])
    | int n => rfl
    | str s => rfl
    | boolean b2 => rfl
    | null => rfl
  rw [hmap]
  cases ls with
  | nil => exact absurd rfl hne
  | cons v vs =>
    show Except.ok (some (PIndex.single nm
        ((IndexEntry.scalar v :: vs.map IndexEntry.scalar).map
          IndexEntry.toLabel))) =
      Except.ok (some (PIndex.single nm (v :: vs)))
    have hlab : (IndexEntry.scalar v :: vs.map IndexEntry.scalar).map
        IndexEntry.toLabel = v :: vs := by
      rw [List.map_cons, List.map_map]
      show IndexEntry.toLabel (IndexEntry.scalar v) ::
        vs.map (IndexEntry.toLabel ∘ IndexEntry.scalar) = v :: vs
      have hvs : vs.map (IndexEntry.toLabel ∘ IndexEntry.scalar) = vs :=
        (List.map_congr_left (fun a _ => rfl)).trans (List.map_id vs)
      rw [hvs]
      rfl
    rw [hlab]

/-- `MultiIndex.from_tuples` on uniform tuples with a matching names list
succeeds with those names. -/
theorem multiIndexFromTuples_uniform_some (t : List Value)
    (ts : List (List Value)) (l : List (Option String))
    (huni : ∀ u ∈ ts, u.length = t.length) (hl : l.length = t.length) :
    multiIndexFromTuples (t :: ts) (some l) = .ok (.multi l (t :: ts)) := by
  show (if (ts.all (fun u => u.length == t.length)) = true then
      (if (l.length == t.length) = true then
        Except.ok (PIndex.multi l (t :: ts))
      else Except.error DecodeError.badIndexLevelNames)
    else Except.error DecodeError.badIndexTuples) =
    Except.ok (PIndex.multi l (t :: ts))
  rw [List.all_eq_true.mpr
      (fun u hu => by rw [huni u hu]; exact beq_self_eq_true _),
    if_pos rfl,
    (by rw [hl]; exact beq_self_eq_true _ : (l.length == t.length) = true),
    if_pos rfl]

/-- Reconstruction of a non-empty all-tuple index through
`MultiIndex.from_tuples`. -/
theorem reconstructIndex_multi_eval (vs : List Value) (es : List IndexEntry)
    (b : Bool) (names : Option (List (Option String)))
    (hall : es.all (fun e =>
      match e with | .arr _ => true | .scalar _ => false) = true) :
    reconstructIndex (IndexEntry.arr vs :: es) b names =
      (multiIndexFromTuples (vs :: es.map IndexEntry.toTuple) names).map some := by
  have hc : (IndexEntry.arr vs :: es).all (fun e =>
      match e with | .arr _ => true | .scalar _ => false) = true := by
    rw [List.all_cons, hall]
    rfl
  show (if ((IndexEntry.arr vs :: es).all (fun e =>
        match e with | .arr _ => true | .scalar _ => false)) = true then
      (multiIndexFromTuples ((IndexEntry.arr vs :: es).map IndexEntry.toTuple)
        names).map some
    else Except.error DecodeError.badIndexTuples) = _
  rw [hc, if_pos rfl]
  rfl

/-- C3 (counterexample): the zero-row table with a named index does not
round-trip — decoding its encoding, even with its own index level names
supplied, rebuilds an unnamed empty index (`pd.Index([])`), losing the
name; the table is well-formed and no string-normalization is involved. -/
theorem roundtrip_counterexample :
    wellFormed ⟨[⟨"a", []⟩], .single (some "i") []⟩ = true ∧
    display_df_from_api_split_response
        (encode ⟨[⟨"a", []⟩], .single (some "i") []⟩)
        (some (DataFrame.indexNames ⟨[⟨"a", []⟩], .single (some "i") []⟩)) [] =
      .ok ⟨[⟨"a", []⟩], .single none []⟩ ∧
    (⟨[⟨"a", []⟩], .single none []⟩ : DataFrame) ≠
      ⟨[⟨"a", []⟩], .single (some "i") []⟩ := by
  decide

/-- C3 (amended): for every well-formed table with at least one row,
decoding the encoding with the table's own index level names supplied
(and no categorical stringification) reconstructs the table exactly;
zero-row tables instead come back with an unnamed empty single-level
index. -/
theorem decode_encode_roundtrip (df : DataFrame) (hwf : wellFormed df = true)
    (hn : 1 ≤ df.index.length) :
    display_df_from_api_split_response (encode df)
      (some df.indexNames) [] = .ok df := by
  obtain ⟨cs, ix⟩ := df
  cases ix with
  | single nm ls =>
    have hwf2 : (cs.all (fun c => c.values.length == ls.length) &&
        ls.all (fun v => !v.isTup)) = true := hwf
    rw [Bool.and_eq_true] at hwf2
    obtain ⟨hA, hB⟩ := hwf2
    have hlen : ∀ c ∈ cs, c.values.length = PIndex.length (.single nm ls) :=
      fun c hc => eq_of_beq (List.all_eq_true.mp hA c hc)
    have hnt : ∀ v ∈ ls, v.isTup = false := by
      intro v hv
      have := List.all_eq_true.mp hB v hv
      cases hvt : v.isTup with
      | false => rfl
      | true => rw [hvt] at this; exact absurd this (by decide)
    have hn2 : 1 ≤ ls.length := hn
    have hlne : ls ≠ [] := by
      intro hc
      rw [hc] at hn2
      exact absurd hn2 (by decide)
    have hrecok := reconstruct_encode_single nm ls hlne hnt
    have hbuild := buildDataFrame_encode_ok cs (.single nm ls) hlen hn
    show (reconstructIndex (ls.map (fun v =>
          match v with
          | .tup vs => IndexEntry.arr vs
          | v => IndexEntry.scalar v))
        ((List.range (PIndex.length (PIndex.single nm ls))).map
          (fun i => cs.map (fun c => c.values.getD i Value.null))).isEmpty
        (some [nm]) >>= fun ridx =>
      buildDataFrame
        ((List.range (PIndex.length (PIndex.single nm ls))).map
          (fun i => cs.map (fun c => c.values.getD i Value.null)))
        ridx (cs.map Col.name) >>= fun d2 =>
      pure (stringifyCols d2 [])) =
      Except.ok (⟨cs, PIndex.single nm ls⟩ : DataFrame)
    rw [hrecok _]
    show (buildDataFrame
        ((List.range (PIndex.length (PIndex.single nm ls))).map
          (fun i => cs.map (fun c => c.values.getD i Value.null)))
        (some (.single nm ls)) (cs.map Col.name) >>= fun d2 =>
      pure (stringifyCols d2 [])) =
      Except.ok (⟨cs, PIndex.single nm ls⟩ : DataFrame)
    rw [hbuild]
    show pure (stringifyCols ⟨cs, PIndex.single nm ls⟩ []) =
      Except.ok (⟨cs, PIndex.single nm ls⟩ : DataFrame)
    rw [stringifyCols_nil]
    rfl
  | multi ns ls =>
    have hwf2 : (cs.all (fun c => c.values.length == ls.length) &&
        (!ns.isEmpty && ls.all (fun t => t.length == ns.length))) = true := hwf
    rw [Bool.and_eq_true] at hwf2
    obtain ⟨hA, hB⟩ := hwf2
    rw [Bool.and_eq_true] at hB
    obtain ⟨hns, hC⟩ := hB
    have hlen : ∀ c ∈ cs, c.values.length = PIndex.length (.multi ns ls) :=
      fun c hc => eq_of_beq (List.all_eq_true.mp hA c hc)
    have hts : ∀ t2 ∈ ls, t2.length = ns.length :=
      fun t2 h2 => eq_of_beq (List.all_eq_true.mp hC t2 h2)
    have hn2 : 1 ≤ ls.length := hn
    cases ls with
    | nil => exact absurd hn2 (by decide)
    | cons t ts =>
      have hallb : (ts.map IndexEntry.arr).all (fun e =>
          match e with | .arr _ => true | .scalar _ => false) = true := by
        rw [List.all_eq_true]
        intro e he
        obtain ⟨u, _, rfl⟩ := List.mem_map.mp he
        rfl
      have htt : (ts.map IndexEntry.arr).map IndexEntry.toTuple = ts := by
        rw [List.map_map]
        exact (List.map_congr_left fun u _ => rfl).trans (List.map_id ts)
      have ht : t.length = ns.length := hts t (List.mem_cons_self t ts)
      have huni : ∀ u ∈ ts, u.length = t.length := fun u hu => by
        rw [hts u (List.mem_cons_of_mem _ hu), ht]
      have hm := multiIndexFromTuples_uniform_some t ts ns huni ht.symm
      have hrecok : ∀ b2, reconstructIndex
          (IndexEntry.arr t :: ts.map IndexEntry.arr) b2 (some ns) =
          .ok (some (.multi ns (t :: ts))) := by
        intro b2
        rw [reconstructIndex_multi_eval t _ b2 (some ns) hallb, htt, hm]
        rfl
      have hbuild := buildDataFrame_encode_ok cs (.multi ns (t :: ts)) hlen hn
      show (reconstructIndex (IndexEntry.arr t :: ts.map IndexEntry.arr)
          ((List.range (PIndex.length (PIndex.multi ns (t :: ts)))).map
            (fun i => cs.map (fun c => c.values.getD i Value.null))).isEmpty
          (some ns) >>= fun ridx =>
        buildDataFrame
          ((List.range (PIndex.length (PIndex.multi ns (t :: ts)))).map
            (fun i => cs.map (fun c => c.values.getD i Value.null)))
          ridx (cs.map Col.name) >>= fun d2 =>
        pure (stringifyCols d2 [])) =
        Except.ok (⟨cs, PIndex.multi ns (t :: ts)⟩ : DataFrame)
      rw [hrecok _]
      show (buildDataFrame
          ((List.range (PIndex.length (PIndex.multi ns (t :: ts)))).map
            (fun i => cs.map (fun c => c.values.getD i Value.null)))
          (some (.multi ns (t :: ts))) (cs.map Col.name) >>= fun d2 =>
        pure (stringifyCols d2 [])) =
        Except.ok (⟨cs, PIndex.multi ns (t :: ts)⟩ : DataFrame)
      rw [hbuild]
      show pure (stringifyCols ⟨cs, PIndex.multi ns (t :: ts)⟩ []) =
        Except.ok (⟨cs, PIndex.multi ns (t :: ts)⟩ : DataFrame)
      rw [stringifyCols_nil]
      rfl

theorem decode_encode_roundtrip_witness :
    display_df_from_api_split_response
        (encode ⟨[⟨"count", [.int 5, .int 7]⟩],
          .multi [some "cut", some "color"]
            [[.str "Ideal", .str "E"], [.str "Good", .str "F"]]⟩)
        (some (DataFrame.indexNames ⟨[⟨"count", [.int 5, .int 7]⟩],
          .multi [some "cut", some "color"]
            [[.str "Ideal", .str "E"], [.str "Good", .str "F"]]⟩)) [] =
      .ok ⟨[⟨"count", [.int 5, .int 7]⟩],
        .multi [some "cut", some "color"]
          [[.str "Ideal", .str "E"], [.str "Good", .str "F"]]⟩ :=
  decode_encode_roundtrip
    ⟨[⟨"count", [.int 5, .int 7]⟩],
      .multi [some "cut", some "color"]
        [[.str "Ideal", .str "E"], [.str "Good", .str "F"]]⟩
    (by decide) (by decide)

end Dashboard
